import Mathlib

/-!
Verification development for the artisan marketplace dashboard
(src/artisan_marketplace_ai.py and src/blip_pipeline.py).

The Python sources are shallowly embedded: pure helpers become Lean
functions, GUI event handlers become state-transforming functions over an
explicit dashboard state, the MongoDB collections become Lean lists of
documents, and fallible external calls (file copy, model inference,
network) are passed in as explicit Except-valued parameters.  SHA-256
hashing (hashlib.sha256(...).hexdigest()) is abstracted as a function
parameter hp over strings; every theorem is parametric in it, and the
single property of the real digest that a theorem may use
(collision-freedom on the inputs at hand) appears as an explicit
hypothesis.
-/

namespace Artisan

/-- Whitespace set of Python str.strip(): space, tab, newline, carriage
return, vertical tab, form feed. -/
def isPySpace (c : Char) : Bool :=
  c = ' ' || c = '\t' || c = '\n' || c = '\r' || c = '\x0b' || c = '\x0c'

/-- Model of Python str.strip(): drop leading and trailing whitespace. -/
def pyStrip (s : String) : String :=
  (((s.toList.dropWhile isPySpace).reverse.dropWhile isPySpace).reverse).asString

theorem mem_dropWhile {p : Char → Bool} {c : Char} :
    ∀ {l : List Char}, c ∈ l.dropWhile p → c ∈ l := by
  intro l h
  induction l with
  | nil => simp [List.dropWhile] at h
  | cons a t ih =>
    rw [List.dropWhile] at h
    by_cases hp : p a
    · simp [hp] at h
      exact List.mem_cons_of_mem a (ih h)
    · simpa [hp] using h

theorem mem_pyStrip {c : Char} {s : String} (h : c ∈ (pyStrip s).toList) :
    c ∈ s.toList := by
  unfold pyStrip at h
  rw [show ((((s.toList.dropWhile isPySpace).reverse.dropWhile
      isPySpace).reverse).asString).toList
      = (((s.toList.dropWhile isPySpace).reverse.dropWhile
      isPySpace).reverse) from rfl] at h
  rw [List.mem_reverse] at h
  have h2 := mem_dropWhile h
  rw [List.mem_reverse] at h2
  exact mem_dropWhile h2

/-! ## Credential store (users collection)

do_login and do_create are the two auth handlers of
src/artisan_marketplace_ai.py.  A user document carries the fields the
handlers write and read; the Mongo-generated _id is an opaque string
supplied by the caller at insert time.  messagebox dialogs are modelled
as the returned Option String error message; a returned error means the
handler exited before touching the collection, which the definitions
encode by returning the incoming list unchanged. -/

structure UserDoc where
  id : String
  username : String
  password : String
  email : String
  is_admin : Bool
  deriving Repr, DecidableEq

/-- users_collection.find_one with a username filter: first document in
insertion order whose username field matches. -/
def find_one_username (users : List UserDoc) (u : String) : Option UserDoc :=
  users.find? (fun d => d.username == u)

/-- do_login handler: strip both entries, reject empties, look the user
up by username and compare the stored hash with the hash of the entered
password.  hp abstracts hash_password (SHA-256 hex digest). -/
def do_login (hp : String → String) (users : List UserDoc)
    (uname pwd : String) : Option UserDoc :=
  let u := pyStrip uname
  let p := pyStrip pwd
  if u = "" || p = "" then none
  else
    match find_one_username users u with
    | some user => if user.password = hp p then some user else none
    | none => none

/-- do_create handler: strip the four entries; reject if any is empty,
the passwords mismatch, or the username exists; otherwise insert one
non-admin document.  Returns the new collection contents and the error
message, if any. -/
def do_create (hp : String → String) (users : List UserDoc) (oid : String)
    (uname mail pwd conf : String) : List UserDoc × Option String :=
  let u := pyStrip uname
  let m := pyStrip mail
  let p := pyStrip pwd
  let c := pyStrip conf
  if u = "" || m = "" || p = "" || c = "" then
    (users, some "Please fill all fields.")
  else if p ≠ c then
    (users, some "Passwords do not match.")
  else if (find_one_username users u).isSome then
    (users, some "Username already exists.")
  else
    (users ++ [{ id := oid, username := u, password := hp p, email := m,
                 is_admin := false }], none)

theorem find?_append_none {α : Type} {p : α → Bool} {l₁ : List α}
    (l₂ : List α) (h : l₁.find? p = none) :
    (l₁ ++ l₂).find? p = l₂.find? p := by
  induction l₁ with
  | nil => rfl
  | cons a t ih =>
    rw [List.find?] at h
    rcases hpa : p a with _ | _
    · rw [hpa] at h
      simp only [List.cons_append, List.find?, hpa]
      exact ih h
    · rw [hpa] at h
      exact absurd h (by simp)

/-! ## Image intake (save_image_to_project)

splitext_ext models os.path.splitext(p)[1] for POSIX paths: the
extension starts at the last dot of the final path component, provided
at least one character of that component before the dot is not itself a
dot (so dotfiles such as .bashrc have no extension). -/

/-- Scan a reversed character list for the last dot of the path, giving
up at the first path separator.  acc collects, in forward order, the
characters that follow that dot; the second component is the reversed
remainder in front of the dot. -/
def findDotRev (acc : List Char) : List Char → Option (List Char × List Char)
  | [] => none
  | c :: rest =>
    if c = '/' then none
    else if c = '.' then some (acc, rest)
    else findDotRev (c :: acc) rest

/-- os.path.splitext(p)[1]. -/
def splitext_ext (p : String) : String :=
  match findDotRev [] p.toList.reverse with
  | none => ""
  | some (tail, revRest) =>
    if (revRest.takeWhile (fun c => c ≠ '/')).any (fun c => c ≠ '.') then
      ('.' :: tail).asString
    else ""

/-- The owned storage directory (IMAGE_FOLDER default, env override not
modelled). -/
def IMAGE_FOLDER : String := "artisan_images"

/-- os.path.join for the one call site, where the right operand is a
bare file name and the left has no trailing separator. -/
def ospath_join (a b : String) : String := a ++ "/" ++ b

/-- save_image_to_project: derive a safe user slug, append a millisecond
timestamp (passed in, since wall-clock time is an input here) and the
source extension, and return the destination path inside IMAGE_FOLDER.
The shutil.copy2 byte copy itself is modelled separately by copy2. -/
def save_image_to_project (src_path username : String) (ts : Nat) : String :=
  let ext0 := splitext_ext src_path
  let ext := if ext0 = "" then ".jpg" else ext0
  let su0 := pyStrip
    ((username.toList.filter
      (fun c => c.isAlphanum || c = '_' || c = '-')).asString)
  let safe_user := if su0 = "" then "user" else su0
  let dest_name := safe_user ++ "_" ++ Nat.repr ts ++ ext
  ospath_join IMAGE_FOLDER dest_name

/-- shutil.copy2, reduced to its observable outcome: raises
SameFileError when source and destination are the one path, and may
raise an arbitrary I/O error (the ioFail parameter); otherwise
succeeds. -/
def copy2 (ioFail : Option String) (src dest : String) : Except String Unit :=
  if src = dest then Except.error "SameFileError"
  else
    match ioFail with
    | some e => Except.error e
    | none => Except.ok ()

/-- A path lies inside the owned directory: it extends the
IMAGE_FOLDER slash prefix by a file name free of further separators. -/
def insideOwnedB (p : String) : Bool :=
  let pre := (IMAGE_FOLDER ++ "/").toList
  pre.isPrefixOf p.toList &&
    (p.toList.drop pre.length).all (fun c => c ≠ '/')

theorem ne_slash_of_mem_of_all {l : List Char}
    (hall : l.all (fun c => c ≠ '/') = true) {c : Char} (hc : c ∈ l) :
    c ≠ '/' := by
  rw [List.all_eq_true] at hall
  simpa using hall c hc

theorem digitChar_ne_slash (m : Nat) : Nat.digitChar m ≠ '/' := by
  by_cases h : m < 16
  · interval_cases m <;> decide
  · unfold Nat.digitChar
    rw [if_neg (show ¬ m = 0 by omega), if_neg (show ¬ m = 1 by omega),
        if_neg (show ¬ m = 2 by omega), if_neg (show ¬ m = 3 by omega),
        if_neg (show ¬ m = 4 by omega), if_neg (show ¬ m = 5 by omega),
        if_neg (show ¬ m = 6 by omega), if_neg (show ¬ m = 7 by omega),
        if_neg (show ¬ m = 8 by omega), if_neg (show ¬ m = 9 by omega),
        if_neg (show ¬ m = 10 by omega), if_neg (show ¬ m = 11 by omega),
        if_neg (show ¬ m = 12 by omega), if_neg (show ¬ m = 13 by omega),
        if_neg (show ¬ m = 14 by omega), if_neg (show ¬ m = 15 by omega)]
    decide

theorem toDigitsCore_ne_slash :
    ∀ (fuel n : Nat) (ds : List Char), (∀ c ∈ ds, c ≠ '/') →
      ∀ c ∈ Nat.toDigitsCore 10 fuel n ds, c ≠ '/' := by
  intro fuel
  induction fuel with
  | zero => intro n ds hds; exact hds
  | succ f ih =>
    intro n ds hds c hc
    simp only [Nat.toDigitsCore] at hc
    split at hc
    · rcases List.mem_cons.mp hc with h | h
      · rw [h]; exact digitChar_ne_slash _
      · exact hds c h
    · refine ih _ _ ?_ c hc
      intro d hd
      rcases List.mem_cons.mp hd with h | h
      · rw [h]; exact digitChar_ne_slash _
      · exact hds d h

theorem repr_ne_slash (n : Nat) : ∀ c ∈ (Nat.repr n).toList, c ≠ '/' := by
  intro c hc
  have : (Nat.repr n).toList = Nat.toDigitsCore 10 (n + 1) n [] := rfl
  rw [this] at hc
  exact toDigitsCore_ne_slash (n + 1) n [] (by intro d hd; simp at hd) c hc

theorem findDotRev_ne_slash :
    ∀ (l acc tail rest : List Char), (∀ c ∈ acc, c ≠ '/') →
      findDotRev acc l = some (tail, rest) → ∀ c ∈ tail, c ≠ '/' := by
  intro l
  induction l with
  | nil => intro acc tail rest _ h; exact absurd h (by simp [findDotRev])
  | cons a t ih =>
    intro acc tail rest hacc h
    rw [findDotRev] at h
    by_cases ha : a = '/'
    · rw [if_pos ha] at h; exact absurd h (by simp)
    · rw [if_neg ha] at h
      by_cases hd : a = '.'
      · rw [if_pos hd] at h
        have : acc = tail ∧ t = rest := by
          have := Option.some.inj h
          exact ⟨congrArg Prod.fst this, congrArg Prod.snd this⟩
        rw [← this.1]
        exact hacc
      · rw [if_neg hd] at h
        refine ih (a :: acc) tail rest ?_ h
        intro c hc
        rcases List.mem_cons.mp hc with h1 | h1
        · rw [h1]; exact ha
        · exact hacc c h1

theorem splitext_ext_ne_slash (p : String) :
    ∀ c ∈ (splitext_ext p).toList, c ≠ '/' := by
  intro c hc
  unfold splitext_ext at hc
  split at hc
  · simp at hc
  · rename_i tail revRest heq
    split at hc
    · have : (('.' :: tail).asString).toList = '.' :: tail := rfl
      rw [this] at hc
      rcases List.mem_cons.mp hc with h | h
      · rw [h]; decide
      · exact findDotRev_ne_slash _ [] tail revRest (by intro d hd; simp at hd)
          heq c h
    · simp at hc

theorem isPrefixOf_append_self (l₁ l₂ : List Char) :
    l₁.isPrefixOf (l₁ ++ l₂) = true := by
  induction l₁ with
  | nil => simp [List.isPrefixOf]
  | cons a t ih => simp [List.isPrefixOf, ih]

theorem toList_append (a b : String) : (a ++ b).toList = a.toList ++ b.toList :=
  rfl

/-- Every destination path produced by the intake copy lies inside the
owned directory. -/
theorem save_image_inside (src_path username : String) (ts : Nat) :
    insideOwnedB (save_image_to_project src_path username ts) = true := by
  unfold save_image_to_project ospath_join insideOwnedB
  set ext0 := splitext_ext src_path with hext0
  set su0 := pyStrip
    ((username.toList.filter
      (fun c => c.isAlphanum || c = '_' || c = '-')).asString) with hsu0
  set name := (if su0 = "" then "user" else su0) ++ "_" ++ Nat.repr ts ++
    (if ext0 = "" then ".jpg" else ext0) with hname
  have hsplit : (IMAGE_FOLDER ++ "/" ++ name).toList
      = (IMAGE_FOLDER ++ "/").toList ++ name.toList := by
    rw [show IMAGE_FOLDER ++ "/" ++ name = (IMAGE_FOLDER ++ "/") ++ name by
      rw [String.append_assoc]]
    exact toList_append _ _
  rw [Bool.and_eq_true]
  constructor
  · rw [hsplit]; exact isPrefixOf_append_self _ _
  · rw [hsplit, List.drop_left, List.all_eq_true]
    intro c hc
    simp only [decide_eq_true_eq]
    have hmem : c ∈ ((if su0 = "" then "user" else su0) ++ "_" ++
        Nat.repr ts).toList ++ (if ext0 = "" then ".jpg" else ext0).toList := by
      rw [← toList_append]; exact hc
    rcases List.mem_append.mp hmem with h1 | h1
    · have hmem2 : c ∈ ((if su0 = "" then "user" else su0) ++ "_").toList ++
          (Nat.repr ts).toList := by
        rw [← toList_append]; exact h1
      rcases List.mem_append.mp hmem2 with h2 | h2
      · have hmem3 : c ∈ (if su0 = "" then "user" else su0).toList ++
            ("_" : String).toList := by
          rw [← toList_append]; exact h2
        rcases List.mem_append.mp hmem3 with h3 | h3
        · split at h3
          · exact ne_slash_of_mem_of_all (by decide) h3
          · have h4 := mem_pyStrip (hsu0 ▸ h3)
            have h5 : c ∈ username.toList.filter
                (fun c => c.isAlphanum || c = '_' || c = '-') := h4
            have h6 := (List.mem_filter.mp h5).2
            intro hslash
            rw [hslash] at h6
            revert h6; decide
        · exact ne_slash_of_mem_of_all (by decide) h3
      · exact repr_ne_slash ts c h2
    · split at h1
      · exact ne_slash_of_mem_of_all (by decide) h1
      · exact splitext_ext_ne_slash src_path c h1

/-! ## Caption cache file (blip_pipeline.save_to_json)

The JSON file is a flat object mapping image file names to a pair of
strings; after json.load it is a Python dict, modelled as an
association list with unique keys in insertion order.  save_to_json
reads the whole mapping (an empty one if the file is absent), assigns
one key, and writes the whole mapping back. -/

structure CaptionEntry where
  caption : String
  description : String
  deriving Repr, DecidableEq

/-- Python dict assignment d[k] = v on an association list with unique
keys: replace the value in place if the key is present, else append. -/
def dict_set (k : String) (v : CaptionEntry) :
    List (String × CaptionEntry) → List (String × CaptionEntry)
  | [] => [(k, v)]
  | (k0, v0) :: rest =>
    if k0 = k then (k, v) :: rest else (k0, v0) :: dict_set k v rest

/-- Python dict lookup d.get(k). -/
def dict_get (data : List (String × CaptionEntry)) (k : String) :
    Option CaptionEntry :=
  (data.find? (fun kv => kv.1 == k)).map (fun kv => kv.2)

/-- save_to_json: merge one entry into the prior mapping (the data
argument holds the parsed prior file contents, [] when the file does
not exist) and return what gets written back. -/
def save_to_json (data : List (String × CaptionEntry))
    (image_name caption description : String) :
    List (String × CaptionEntry) :=
  dict_set image_name { caption := caption, description := description } data

/-! ## Caption and description generation (blip_pipeline)

The two external model calls are passed in as Except-valued functions:
an error value models a raised exception carrying its message. -/

/-- os.path.basename for POSIX paths. -/
def basename (p : String) : String :=
  ((p.toList.reverse.takeWhile (fun c => c ≠ '/')).reverse).asString

/-- The Gemini prompt built by expand_caption_to_story. -/
def expand_prompt (min_sentences : Nat) (caption : String) : String :=
  "Take the following image caption and expand it into a vivid, " ++
  "artisan-style description. Include colors, textures, materials, " ++
  "patterns, environment, lighting, and emotions. Make it at least " ++
  Nat.repr min_sentences ++ " sentences.\n\nCaption: " ++ caption

/-- expand_caption_to_story: call the text-generation model on the
prompt; on success return the stripped response text, and on any raised
exception catch it and return an error string in its place. -/
def expand_caption_to_story (gem : String → Except String String)
    (min_sentences : Nat) (caption : String) : String :=
  match gem (expand_prompt min_sentences caption) with
  | Except.ok t => pyStrip t
  | Except.error e => "❌ Gemini expansion failed: " ++ e

/-- The dict shape returned by both the real pipeline and the fallback
stub.  dict.get semantics: a none field covers both an absent key and a
stored None. -/
structure GenDict where
  image : Option String
  caption : Option String
  description : Option String
  deriving Repr, DecidableEq

/-- process_single_image of blip_pipeline.py.  fileExists models
os.path.exists; openRes the Image.open/convert/thumbnail step, whose ok
value stands for the in-memory image; capRes the BLIP generate_caption
call on that image; gem the Gemini call keyed by prompt.  The cache
argument is the parsed captions.json contents; the display (img.show)
and the cache file write are taken to succeed.  A missing file or a
caught exception yields Python None, that is Option.none, and leaves
the cache untouched. -/
def process_single_image (fileExists : Bool) (openRes : Except String String)
    (capRes : String → Except String String)
    (gem : String → Except String String) (image_path : String)
    (cache : List (String × CaptionEntry)) :
    Option GenDict × List (String × CaptionEntry) :=
  if fileExists = false then (none, cache)
  else
    match openRes with
    | Except.error _ => (none, cache)
    | Except.ok img =>
      match capRes img with
      | Except.error _ => (none, cache)
      | Except.ok caption =>
        let description := expand_caption_to_story gem 3 caption
        let cache2 := save_to_json cache (basename image_path) caption
          description
        (some { image := some img, caption := some caption,
                description := some description }, cache2)

/-- The fallback stub defined in artisan_marketplace_ai.py when the
blip_pipeline import fails: pure placeholder text from the base name. -/
def blip_process_single_image (image_path : String) : GenDict :=
  let bn := basename image_path
  { image := none,
    caption := some ("Placeholder caption for " ++ bn),
    description := some ("Placeholder description for " ++ bn ++
      " -- model not loaded.") }

/-! ## Dashboard state and handlers (artisan_marketplace_ai.py)

The mutable state a dashboard session touches: the selected image path,
the two text widgets, the logged-in user, and the uploads collection.
Mongo ObjectIds for uploads are modelled by a monotone counter next_id
so that insert_one can return a fresh identifier. -/

structure UploadDoc where
  id : Nat
  user_id : String
  username : String
  image_path : String
  caption : String
  description : String
  deriving Repr, DecidableEq

structure DashState where
  current_user : UserDoc
  selected_image_path : Option String
  caption_field : String
  description_field : String
  last_caption : String
  last_description : String
  uploads : List UploadDoc
  next_id : Nat
  deriving Repr, DecidableEq

/-- save_upload_record: insert one document into the uploads collection
and return the inserted identifier. -/
def save_upload_record (user : UserDoc) (image_path caption description :
    String) (uploads : List UploadDoc) (next_id : Nat) :
    Nat × List UploadDoc × Nat :=
  (next_id,
   uploads ++ [{ id := next_id, user_id := user.id,
                 username := user.username, image_path := image_path,
                 caption := caption, description := description }],
   next_id + 1)

/-- uploads_collection.find_one by identifier. -/
def find_upload (uploads : List UploadDoc) (rid : Nat) : Option UploadDoc :=
  uploads.find? (fun d => d.id == rid)

/-- select_image handler: an empty path models a cancelled dialog; ts
is the wall-clock millisecond timestamp read inside
save_image_to_project; ioFail the possible I/O failure of the byte
copy.  On a copy failure an error dialog is shown and the state is left
as it was; on success the stored destination becomes the selected path
and both text widgets are cleared. -/
def select_image (ioFail : Option String) (path : String) (ts : Nat)
    (s : DashState) : DashState :=
  if path = "" then s
  else
    let dest := save_image_to_project path s.current_user.username ts
    match copy2 ioFail path dest with
    | Except.error _ => s
    | Except.ok _ =>
      { s with selected_image_path := some dest, caption_field := "",
               description_field := "" }

/-- generate_preview handler.  res is the outcome of the
blip_process_single_image call: an error value models a raised
exception; ok none models the real pipeline returning None, on which
the subsequent result.get attribute access raises and is caught by the
same except block.  Both failure modes show a dialog and leave the
fields unchanged.  On a dict result the caption is result.get with the
empty default, and a falsy description is replaced by the caption. -/
def generate_preview (res : Except String (Option GenDict)) (s : DashState) :
    DashState :=
  match s.selected_image_path with
  | none => s
  | some _ =>
    match res with
    | Except.error _ => s
    | Except.ok none => s
    | Except.ok (some r) =>
      let caption := r.caption.getD ""
      let d0 := r.description.getD ""
      let description := if d0 = "" then caption else d0
      { s with caption_field := caption, description_field := description,
               last_caption := caption, last_description := description }

/-- save_to_db handler: require a selected image, strip both text
widgets, reject when both are empty, otherwise insert one upload
record.  Returns the inserted identifier on success; the insert itself
is taken to succeed (the try/except around it only reports a database
error and changes nothing). -/
def save_to_db (s : DashState) : DashState × Option Nat :=
  match s.selected_image_path with
  | none => (s, none)
  | some path =>
    let caption := pyStrip s.caption_field
    let description := pyStrip s.description_field
    if caption = "" ∧ description = "" then (s, none)
    else
      let r := save_upload_record s.current_user path caption description
        s.uploads s.next_id
      ({ s with uploads := r.2.1, next_id := r.2.2 }, some r.1)

/-- The user-triggered dashboard events, each carrying the outcomes of
the external calls it performs. -/
inductive Event where
  | select (ioFail : Option String) (path : String) (ts : Nat)
  | generate (res : Except String (Option GenDict))
  | save

/-- One dashboard event step. -/
def step (s : DashState) : Event → DashState
  | Event.select ioFail path ts => select_image ioFail path ts s
  | Event.generate res => generate_preview res s
  | Event.save => (save_to_db s).1

/-- A dashboard session: fold the events over the state. -/
def run (s : DashState) (events : List Event) : DashState :=
  events.foldl step s

/-! ## Claim theorems -/

/-- Claim C1 fails as stated: with password and confirmation both the
blank string, all four signup fields are non-empty, the password equals
the confirmation and the username is absent from the collection, yet
the subsequent login with the same username and password returns no
user record, because the handlers strip whitespace before checking. -/
theorem claim_C1_counterexample :
    (("alice" : String) ≠ "" ∧ ("a@x.com" : String) ≠ "" ∧
      (" " : String) ≠ "" ∧ (" " : String) = " " ∧
      find_one_username [] "alice" = none) ∧
    do_login (fun s => s)
      (do_create (fun s => s) [] "id1" "alice" "a@x.com" " " " ").1
      "alice" " " = none := by
  decide

/-- Claim C1 (amended): for every signup whose four fields are
non-empty after stripping, whose stripped password equals the stripped
confirmation, and whose stripped username is not already present, the
signup succeeds and a subsequent login with the same username and
password returns the stored user record. -/
theorem claim_C1 (hp : String → String) (users : List UserDoc)
    (oid uname mail pwd conf : String)
    (h1 : pyStrip uname ≠ "") (h2 : pyStrip mail ≠ "")
    (h3 : pyStrip pwd ≠ "") (h4 : pyStrip conf ≠ "")
    (h5 : pyStrip pwd = pyStrip conf)
    (h6 : find_one_username users (pyStrip uname) = none) :
    ∃ doc : UserDoc,
      (do_create hp users oid uname mail pwd conf).2 = none ∧
      (do_create hp users oid uname mail pwd conf).1 = users ++ [doc] ∧
      do_login hp (do_create hp users oid uname mail pwd conf).1 uname pwd
        = some doc := by
  refine ⟨{ id := oid, username := pyStrip uname,
            password := hp (pyStrip pwd), email := pyStrip mail,
            is_admin := false }, ?_, ?_, ?_⟩
  · simp [do_create, h1, h2, h3, h4, h5, h6]
  · simp [do_create, h1, h2, h3, h4, h5, h6]
  · have hstate : (do_create hp users oid uname mail pwd conf).1 =
        users ++ [{ id := oid, username := pyStrip uname,
                    password := hp (pyStrip pwd), email := pyStrip mail,
                    is_admin := false }] := by
      simp [do_create, h1, h2, h3, h4, h5, h6]
    rw [hstate]
    have hfind : find_one_username (users ++
        [{ id := oid, username := pyStrip uname,
           password := hp (pyStrip pwd), email := pyStrip mail,
           is_admin := false }]) (pyStrip uname) =
        some { id := oid, username := pyStrip uname,
               password := hp (pyStrip pwd), email := pyStrip mail,
               is_admin := false } := by
      unfold find_one_username at h6 ⊢
      rw [find?_append_none _ h6]
      simp [List.find?]
    simp [do_login, h1, h3, hfind]

/-- Claim C1 witness: the amended theorem applied to a fresh signup of
alice over the empty collection. -/
theorem claim_C1_witness :
    (pyStrip "alice" ≠ "" ∧ pyStrip "a@x.com" ≠ "" ∧
      pyStrip "pw1" ≠ "" ∧ pyStrip "pw1" = pyStrip "pw1" ∧
      find_one_username [] (pyStrip "alice") = none) ∧
    ∃ doc : UserDoc,
      (do_create (fun s => s) [] "id1" "alice" "a@x.com" "pw1" "pw1").2
        = none ∧
      (do_create (fun s => s) [] "id1" "alice" "a@x.com" "pw1" "pw1").1
        = [] ++ [doc] ∧
      do_login (fun s => s)
        (do_create (fun s => s) [] "id1" "alice" "a@x.com" "pw1" "pw1").1
        "alice" "pw1" = some doc :=
  ⟨⟨by decide, by decide, by decide, by decide, by decide⟩,
    claim_C1 (fun s => s) [] "id1" "alice" "a@x.com" "pw1" "pw1"
      (by decide) (by decide) (by decide) (by decide) (by decide)
      (by decide)⟩

/-- Claim C2 fails as stated: bob signs up with password pw, and a
login with the different string pw followed by a space succeeds,
because do_login strips the entered password before hashing. -/
theorem claim_C2_counterexample :
    ("pw " : String) ≠ "pw" ∧
    do_login (fun s => s)
      (do_create (fun s => s) [] "id1" "bob" "b@x.com" "pw" "pw").1
      "bob" "pw " =
      some { id := "id1", username := "bob", password := "pw",
             email := "b@x.com", is_admin := false } := by
  decide

/-- Claim C2 (amended): for every user created at signup with password
p, a login with that username and any password whose stripped form
differs from the stripped p fails, provided the hash has no collision
on the two stripped passwords (injectivity of the modelled digest). -/
theorem claim_C2 (hp : String → String) (hinj : Function.Injective hp)
    (users : List UserDoc) (oid uname mail pwd conf p2 : String)
    (h1 : pyStrip uname ≠ "") (h2 : pyStrip mail ≠ "")
    (h3 : pyStrip pwd ≠ "") (h4 : pyStrip conf ≠ "")
    (h5 : pyStrip pwd = pyStrip conf)
    (h6 : find_one_username users (pyStrip uname) = none)
    (hne : pyStrip p2 ≠ pyStrip pwd) :
    do_login hp (do_create hp users oid uname mail pwd conf).1 uname p2
      = none := by
  have hstate : (do_create hp users oid uname mail pwd conf).1 =
      users ++ [{ id := oid, username := pyStrip uname,
                  password := hp (pyStrip pwd), email := pyStrip mail,
                  is_admin := false }] := by
    simp [do_create, h1, h2, h3, h4, h5, h6]
  rw [hstate]
  by_cases hp2 : pyStrip p2 = ""
  · simp [do_login, hp2]
  · have hfind : find_one_username (users ++
        [{ id := oid, username := pyStrip uname,
           password := hp (pyStrip pwd), email := pyStrip mail,
           is_admin := false }]) (pyStrip uname) =
        some { id := oid, username := pyStrip uname,
               password := hp (pyStrip pwd), email := pyStrip mail,
               is_admin := false } := by
      unfold find_one_username at h6 ⊢
      rw [find?_append_none _ h6]
      simp [List.find?]
    have hneq : hp (pyStrip pwd) ≠ hp (pyStrip p2) := by
      intro h
      exact hne (hinj h.symm)
    simp [do_login, h1, hp2, hfind, hneq]

/-- Claim C2 witness: the amended theorem applied with the identity as
the injective digest, bob signing up with pw1 and a login attempted
with the password wrong. -/
theorem claim_C2_witness :
    (pyStrip "wrong" ≠ pyStrip "pw1") ∧
    do_login (fun s => s)
      (do_create (fun s => s) [] "id1" "bob" "b@x.com" "pw1" "pw1").1
      "bob" "wrong" = none :=
  ⟨by decide,
    claim_C2 (fun s => s) (fun _ _ h => h) [] "id1" "bob" "b@x.com"
      "pw1" "pw1" "wrong" (by decide) (by decide) (by decide) (by decide)
      (by decide) (by decide) (by decide)⟩

/-- Claim C8 fails as stated: with password the string a followed by a
space and confirmation the bare string a, the confirmation differs
from the password, so the claim requires the signup to fail; the
handler strips both before comparing and the signup succeeds. -/
theorem claim_C8_counterexample :
    ("a " : String) ≠ "a" ∧
    (do_create (fun s => s) [] "id1" "carol" "c@x.com" "a " "a").2
      = none ∧
    (do_create (fun s => s) [] "id1" "carol" "c@x.com" "a " "a").1
      = [{ id := "id1", username := "carol", password := "a",
           email := "c@x.com", is_admin := false }] := by
  decide

/-- Claim C8 (amended): signup fails exactly when some field is empty
after stripping, the stripped confirmation differs from the stripped
password, or the stripped username already exists; on failure the
users collection is left unchanged, and otherwise exactly one new
record with the admin flag false is appended. -/
theorem claim_C8 (hp : String → String) (users : List UserDoc)
    (oid uname mail pwd conf : String) :
    (((do_create hp users oid uname mail pwd conf).2.isSome = true) ↔
      (pyStrip uname = "" ∨ pyStrip mail = "" ∨ pyStrip pwd = "" ∨
       pyStrip conf = "" ∨ pyStrip pwd ≠ pyStrip conf ∨
       (find_one_username users (pyStrip uname)).isSome = true)) ∧
    ((do_create hp users oid uname mail pwd conf).1 =
      if (do_create hp users oid uname mail pwd conf).2.isSome = true
      then users
      else users ++ [{ id := oid, username := pyStrip uname,
                       password := hp (pyStrip pwd),
                       email := pyStrip mail, is_admin := false }]) := by
  by_cases e1 : pyStrip uname = ""
  · constructor
    · simp [do_create, e1]
    · simp [do_create, e1]
  by_cases e2 : pyStrip mail = ""
  · constructor
    · simp [do_create, e2]
    · simp [do_create, e1, e2]
  by_cases e3 : pyStrip pwd = ""
  · constructor
    · simp [do_create, e3]
    · simp [do_create, e1, e2, e3]
  by_cases e4 : pyStrip conf = ""
  · constructor
    · simp [do_create, e4]
    · simp [do_create, e1, e2, e3, e4]
  by_cases e5 : pyStrip pwd = pyStrip conf
  · by_cases e6 : (find_one_username users (pyStrip uname)).isSome = true
    · constructor
      · simp [do_create, e1, e2, e3, e4, e5, e6]
      · simp [do_create, e1, e2, e3, e4, e5, e6]
    · constructor
      · simp [do_create, e1, e2, e3, e4, e5, e6]
      · simp [do_create, e1, e2, e3, e4, e5, e6]
  · constructor
    · simp [do_create, e1, e2, e3, e4, e5]
    · simp [do_create, e1, e2, e3, e4, e5]

/-- A sample logged-in user for concrete instantiations. -/
def sampleUser : UserDoc :=
  { id := "id1", username := "alice", password := "h",
    email := "a@x.com", is_admin := false }

/-- A sample dashboard state for concrete instantiations: the given
selection and widget texts over an empty uploads collection. -/
def sampleState (sel : Option String) (cap desc : String) : DashState :=
  { current_user := sampleUser, selected_image_path := sel,
    caption_field := cap, description_field := desc, last_caption := "",
    last_description := "", uploads := [], next_id := 0 }

/-- Claim C4: with an image selected and both text widgets blank after
stripping, the save handler rejects the save and leaves the whole
state, the uploads collection included, unchanged. -/
theorem claim_C4 (s : DashState) (p : String)
    (hsel : s.selected_image_path = some p)
    (hc : pyStrip s.caption_field = "")
    (hd : pyStrip s.description_field = "") :
    save_to_db s = (s, none) := by
  simp [save_to_db, hsel, hc, hd]

/-- Claim C4 witness: a state with a selected image and whitespace-only
widgets is left unchanged by the save handler. -/
theorem claim_C4_witness :
    ((sampleState (some "artisan_images/alice_7.jpg") "  "
        "\n").selected_image_path = some "artisan_images/alice_7.jpg" ∧
      pyStrip "  " = "" ∧ pyStrip "\n" = "") ∧
    save_to_db (sampleState (some "artisan_images/alice_7.jpg") "  " "\n")
      = (sampleState (some "artisan_images/alice_7.jpg") "  " "\n", none) :=
  ⟨⟨rfl, by decide, by decide⟩,
    claim_C4 _ "artisan_images/alice_7.jpg" rfl (by decide) (by decide)⟩

/-- Claim C6 fails as stated: saving with the caption widget holding
the text hi followed by a space persists the stripped caption hi,
which is not character for character the widget text. -/
theorem claim_C6_counterexample :
    ((save_to_db (sampleState (some "artisan_images/alice_7.jpg") "hi "
        "")).1.uploads =
      [{ id := 0, user_id := "id1", username := "alice",
         image_path := "artisan_images/alice_7.jpg", caption := "hi",
         description := "" }]) ∧
    ("hi" : String) ≠ "hi " := by
  decide

/-- Claim C6 (amended): with an image selected and a caption widget
non-empty after stripping, the save handler appends exactly one upload
record, retrievable by the returned identifier, whose caption and
description are the stripped widget texts. -/
theorem claim_C6 (s : DashState) (p : String)
    (hsel : s.selected_image_path = some p)
    (hc : pyStrip s.caption_field ≠ "")
    (hfresh : ∀ d ∈ s.uploads, d.id ≠ s.next_id) :
    ∃ doc : UploadDoc,
      (save_to_db s).2 = some s.next_id ∧
      (save_to_db s).1.uploads = s.uploads ++ [doc] ∧
      find_upload (save_to_db s).1.uploads s.next_id = some doc ∧
      doc.caption = pyStrip s.caption_field ∧
      doc.description = pyStrip s.description_field := by
  refine ⟨{ id := s.next_id, user_id := s.current_user.id,
            username := s.current_user.username, image_path := p,
            caption := pyStrip s.caption_field,
            description := pyStrip s.description_field },
          ?_, ?_, ?_, rfl, rfl⟩
  · simp [save_to_db, hsel, save_upload_record, hc]
  · simp [save_to_db, hsel, save_upload_record, hc]
  · have hups : (save_to_db s).1.uploads = s.uploads ++
        [{ id := s.next_id, user_id := s.current_user.id,
           username := s.current_user.username, image_path := p,
           caption := pyStrip s.caption_field,
           description := pyStrip s.description_field }] := by
      simp [save_to_db, hsel, save_upload_record, hc]
    rw [hups]
    unfold find_upload
    rw [find?_append_none]
    · simp [List.find?]
    · rw [List.find?_eq_none]
      intro d hd
      simp [hfresh d hd]

/-- Claim C6 witness: the amended theorem applied to a save over an
empty uploads collection with the caption widget holding edited text. -/
theorem claim_C6_witness :
    ((sampleState (some "artisan_images/alice_7.jpg")
        "hand edited caption" "hand edited description").selected_image_path
      = some "artisan_images/alice_7.jpg" ∧
      pyStrip "hand edited caption" ≠ "") ∧
    ∃ doc : UploadDoc,
      (save_to_db (sampleState (some "artisan_images/alice_7.jpg")
          "hand edited caption" "hand edited description")).2 = some 0 ∧
      (save_to_db (sampleState (some "artisan_images/alice_7.jpg")
          "hand edited caption" "hand edited description")).1.uploads
        = [] ++ [doc] ∧
      find_upload (save_to_db (sampleState
          (some "artisan_images/alice_7.jpg") "hand edited caption"
          "hand edited description")).1.uploads 0 = some doc ∧
      doc.caption = pyStrip "hand edited caption" ∧
      doc.description = pyStrip "hand edited description" :=
  ⟨⟨rfl, by decide⟩,
    claim_C6 _ "artisan_images/alice_7.jpg" rfl (by decide)
      (by intro d hd; simp [sampleState] at hd)⟩

theorem dict_get_set_self (k : String) (v : CaptionEntry) :
    ∀ data : List (String × CaptionEntry),
      dict_get (dict_set k v data) k = some v := by
  intro data
  induction data with
  | nil => simp [dict_set, dict_get, List.find?]
  | cons hd tl ih =>
    obtain ⟨k0, v0⟩ := hd
    by_cases h : k0 = k
    · simp [dict_set, h, dict_get, List.find?]
    · simp only [dict_set, if_neg h]
      simp only [dict_get, List.find?] at ih ⊢
      have hbeq : (k0 == k) = false := by simp [h]
      simp only [hbeq]
      exact ih

theorem dict_get_set_other (k : String) (v : CaptionEntry) (k2 : String)
    (hk : k2 ≠ k) :
    ∀ data : List (String × CaptionEntry),
      dict_get (dict_set k v data) k2 = dict_get data k2 := by
  intro data
  have hbeq : (k == k2) = false := by
    simp only [beq_eq_false_iff_ne, ne_eq]
    intro h
    exact hk h.symm
  induction data with
  | nil => simp [dict_set, dict_get, List.find?, hbeq]
  | cons hd tl ih =>
    obtain ⟨k0, v0⟩ := hd
    by_cases h : k0 = k
    · simp [dict_set, h, dict_get, List.find?, hbeq]
    · simp only [dict_set, if_neg h]
      simp only [dict_get, List.find?] at ih ⊢
      cases hbeq0 : (k0 == k2) with
      | true => simp
      | false => exact ih

/-- Claim C7: writing one cache entry maps the written image name to
exactly the new caption and description, and every other key keeps its
previous value; a repeated key is overwritten in place. -/
theorem claim_C7 (data : List (String × CaptionEntry))
    (image_name caption description : String) :
    dict_get (save_to_json data image_name caption description) image_name
      = some { caption := caption, description := description } ∧
    ∀ k : String, k ≠ image_name →
      dict_get (save_to_json data image_name caption description) k
        = dict_get data k := by
  constructor
  · exact dict_get_set_self image_name _ data
  · intro k hk
    exact dict_get_set_other image_name _ k hk data

/-- Claim C7 witness: the theorem applied to a two-entry cache,
overwriting one key and leaving the other untouched. -/
theorem claim_C7_witness :
    dict_get (save_to_json
        [("a.jpg", { caption := "old", description := "oldd" }),
         ("b.jpg", { caption := "bc", description := "bd" })]
        "a.jpg" "new" "newd") "a.jpg"
      = some { caption := "new", description := "newd" } ∧
    dict_get (save_to_json
        [("a.jpg", { caption := "old", description := "oldd" }),
         ("b.jpg", { caption := "bc", description := "bd" })]
        "a.jpg" "new" "newd") "b.jpg"
      = dict_get
        [("a.jpg", { caption := "old", description := "oldd" }),
         ("b.jpg", { caption := "bc", description := "bd" })] "b.jpg" :=
  ⟨(claim_C7 [("a.jpg", { caption := "old", description := "oldd" }),
      ("b.jpg", { caption := "bc", description := "bd" })]
      "a.jpg" "new" "newd").1,
   (claim_C7 [("a.jpg", { caption := "old", description := "oldd" }),
      ("b.jpg", { caption := "bc", description := "bd" })]
      "a.jpg" "new" "newd").2 "b.jpg" (by decide)⟩

/-- Claim C9: the fallback stub is a pure function of the image path;
two runs agree, and the text is exactly the placeholder caption and the
placeholder description built from the base name. -/
theorem claim_C9 (image_path : String) :
    blip_process_single_image image_path
      = blip_process_single_image image_path ∧
    (blip_process_single_image image_path).caption
      = some ("Placeholder caption for " ++ basename image_path) ∧
    (blip_process_single_image image_path).description
      = some ("Placeholder description for " ++ basename image_path ++
          " -- model not loaded.") :=
  ⟨rfl, rfl, rfl⟩

/-- Claim C10: when the generation result carries a non-empty caption
and a missing, None or empty description, the handler shows the caption
in the description widget; and with a non-empty caption the description
widget is never left empty. -/
theorem claim_C10 (s : DashState) (r : GenDict) (p c : String)
    (hsel : s.selected_image_path = some p)
    (hcap : r.caption = some c) (hc : c ≠ "")
    (hdesc : r.description = none ∨ r.description = some "") :
    (generate_preview (Except.ok (some r)) s).caption_field = c ∧
    (generate_preview (Except.ok (some r)) s).description_field = c ∧
    ∀ r2 : GenDict, r2.caption.getD "" ≠ "" →
      (generate_preview (Except.ok (some r2)) s).description_field ≠ "" := by
  refine ⟨?_, ?_, ?_⟩
  · rcases hdesc with hd | hd <;> simp [generate_preview, hsel, hcap, hd]
  · rcases hdesc with hd | hd <;> simp [generate_preview, hsel, hcap, hd]
  · intro r2 hr2
    by_cases hd0 : r2.description.getD "" = ""
    · simpa [generate_preview, hsel, hd0] using hr2
    · simp [generate_preview, hsel, hd0]

/-- A sample generation result with a non-empty caption and an empty
description, for concrete instantiations. -/
def sampleGen : GenDict :=
  { image := none, caption := some "a vase", description := some "" }

/-- Claim C10 witness: the theorem applied to a result with caption a
vase and an empty description. -/
theorem claim_C10_witness :
    ((sampleState (some "artisan_images/alice_7.jpg") ""
        "").selected_image_path = some "artisan_images/alice_7.jpg" ∧
      sampleGen.caption = some "a vase" ∧
      ("a vase" : String) ≠ "") ∧
    (generate_preview (Except.ok (some sampleGen))
      (sampleState (some "artisan_images/alice_7.jpg") ""
        "")).caption_field = "a vase" ∧
    (generate_preview (Except.ok (some sampleGen))
      (sampleState (some "artisan_images/alice_7.jpg") ""
        "")).description_field = "a vase" :=
  ⟨⟨rfl, rfl, by decide⟩,
    (claim_C10 _ _ "artisan_images/alice_7.jpg" "a vase" rfl rfl
      (by decide) (Or.inr rfl)).1,
    (claim_C10 _ _ "artisan_images/alice_7.jpg" "a vase" rfl rfl
      (by decide) (Or.inr rfl)).2.1⟩

/-- Claim C3 fails as stated: when the text-generation call raises the
exception boom, process_single_image does not fail; it returns a
successful result whose description is the error string built by
expand_caption_to_story, and writes that string into the cache. -/
theorem claim_C3_counterexample :
    process_single_image true (Except.ok "img0")
      (fun _ => Except.ok "a cat") (fun _ => Except.error "boom")
      "photo.jpg" [] =
      (some { image := some "img0", caption := some "a cat",
              description := some "❌ Gemini expansion failed: boom" },
       [("photo.jpg",
         { caption := "a cat",
           description := "❌ Gemini expansion failed: boom" })]) := by
  decide

/-- Claim C3 (amended): exceptions are swallowed, not surfaced.  A
raised exception in the image-open or vision-captioning step is caught
and yields None with the cache untouched; a raised exception in the
text-generation call is caught inside expand_caption_to_story and the
operation still succeeds, with an error string standing in for the
description in both the result and the cache. -/
theorem claim_C3 (openErr img cap e path : String)
    (capRes gem : String → Except String String)
    (cache : List (String × CaptionEntry)) :
    (process_single_image false (Except.ok img) capRes gem path cache
      = (none, cache)) ∧
    (process_single_image true (Except.error openErr) capRes gem path cache
      = (none, cache)) ∧
    (capRes img = Except.error e →
      process_single_image true (Except.ok img) capRes gem path cache
        = (none, cache)) ∧
    (capRes img = Except.ok cap →
      gem (expand_prompt 3 cap) = Except.error e →
      process_single_image true (Except.ok img) capRes gem path cache
        = (some { image := some img, caption := some cap,
                  description := some ("❌ Gemini expansion failed: " ++ e) },
           save_to_json cache (basename path) cap
             ("❌ Gemini expansion failed: " ++ e))) := by
  refine ⟨rfl, rfl, ?_, ?_⟩
  · intro hcap
    simp [process_single_image, hcap]
  · intro hcap hgem
    simp [process_single_image, hcap, expand_caption_to_story, hgem]

/-- Claim C3 witness: the amended theorem applied to a failing caption
call and, separately, a failing text-generation call. -/
theorem claim_C3_witness :
    (((fun _ => Except.error "visionboom" :
        String → Except String String) "img0" = Except.error "visionboom") ∧
      process_single_image true (Except.ok "img0")
        (fun _ => Except.error "visionboom")
        (fun _ => Except.error "boom") "photo.jpg" [] = (none, [])) ∧
    (((fun _ => Except.ok "a cat" :
        String → Except String String) "img0" = Except.ok "a cat") ∧
      process_single_image true (Except.ok "img0")
        (fun _ => Except.ok "a cat") (fun _ => Except.error "boom")
        "photo.jpg" [] =
        (some { image := some "img0", caption := some "a cat",
                description := some ("❌ Gemini expansion failed: " ++
                  "boom") },
         save_to_json [] (basename "photo.jpg") "a cat"
           ("❌ Gemini expansion failed: " ++ "boom"))) :=
  ⟨⟨rfl, (claim_C3 "openerr" "img0" "a cat" "visionboom" "photo.jpg"
      (fun _ => Except.error "visionboom") (fun _ => Except.error "boom")
      []).2.2.1 rfl⟩,
   ⟨rfl, (claim_C3 "openerr" "img0" "a cat" "boom" "photo.jpg"
      (fun _ => Except.ok "a cat") (fun _ => Except.error "boom")
      []).2.2.2 rfl rfl⟩⟩

theorem copy2_ok_ne {ioFail : Option String} {src dest : String}
    (h : copy2 ioFail src dest = Except.ok ()) : src ≠ dest := by
  intro he
  simp only [copy2, if_pos he] at h
  exact Except.noConfusion h

/-- One dashboard event preserves the custody invariant: the uploads
all reference owned paths and so does any selected path. -/
theorem step_preserves (s : DashState) (ev : Event)
    (hu : ∀ d ∈ s.uploads, insideOwnedB d.image_path = true)
    (hsel : ∀ q, s.selected_image_path = some q → insideOwnedB q = true) :
    (∀ d ∈ (step s ev).uploads, insideOwnedB d.image_path = true) ∧
    (∀ q, (step s ev).selected_image_path = some q →
      insideOwnedB q = true) := by
  cases ev with
  | select ioFail path ts =>
    simp only [step, select_image]
    by_cases hpath : path = ""
    · rw [if_pos hpath]
      exact ⟨hu, hsel⟩
    · rw [if_neg hpath]
      cases hcopy : copy2 ioFail path
          (save_image_to_project path s.current_user.username ts) with
      | error e =>
        exact ⟨hu, hsel⟩
      | ok u =>
        refine ⟨hu, ?_⟩
        intro q hq
        simp only [Option.some.injEq] at hq
        rw [← hq]
        exact save_image_inside path s.current_user.username ts
  | generate res =>
    simp only [step, generate_preview]
    cases hs : s.selected_image_path with
    | none => exact ⟨hu, hsel⟩
    | some p =>
      cases res with
      | error e => exact ⟨hu, hsel⟩
      | ok og =>
        cases og with
        | none => exact ⟨hu, hsel⟩
        | some r =>
          refine ⟨hu, ?_⟩
          intro q hq
          exact hsel q (by rw [hs]; exact hq)
  | save =>
    simp only [step]
    cases hs : s.selected_image_path with
    | none =>
      simp only [save_to_db, hs]
      refine ⟨hu, ?_⟩
      intro q hq
      exact hsel q (hs.trans hq)
    | some path =>
      by_cases hempty : pyStrip s.caption_field = "" ∧
          pyStrip s.description_field = ""
      · simp only [save_to_db, hs, if_pos hempty]
        refine ⟨hu, ?_⟩
        intro q hq
        exact hsel q (hs.trans hq)
      · simp only [save_to_db, hs, if_neg hempty]
        constructor
        · intro d hd
          simp only [save_upload_record, List.mem_append,
            List.mem_singleton] at hd
          rcases hd with hd | hd
          · exact hu d hd
          · rw [hd]
            exact hsel path hs
        · intro q hq
          exact hsel q (by rw [hs]; exact hq)

/-- Claim C5: a successful image selection stores a destination path
that lies inside the owned directory and differs from the source path;
and along any dashboard session whose start satisfies the custody
invariant, every upload record keeps referencing only owned paths. -/
theorem claim_C5 :
    (∀ (ioFail : Option String) (path : String) (ts : Nat) (s : DashState),
      path ≠ "" →
      copy2 ioFail path
        (save_image_to_project path s.current_user.username ts)
        = Except.ok () →
      (select_image ioFail path ts s).selected_image_path
        = some (save_image_to_project path s.current_user.username ts) ∧
      insideOwnedB (save_image_to_project path s.current_user.username ts)
        = true ∧
      save_image_to_project path s.current_user.username ts ≠ path) ∧
    (∀ (s : DashState) (events : List Event),
      (∀ d ∈ s.uploads, insideOwnedB d.image_path = true) →
      (∀ q, s.selected_image_path = some q → insideOwnedB q = true) →
      ∀ d ∈ (run s events).uploads, insideOwnedB d.image_path = true) := by
  constructor
  · intro ioFail path ts s hpath hcopy
    refine ⟨?_, save_image_inside path s.current_user.username ts,
      (copy2_ok_ne hcopy).symm⟩
    simp only [select_image]
    rw [if_neg hpath, hcopy]
  · intro s events
    induction events generalizing s with
    | nil => intro hu _ d hd; exact hu d hd
    | cons ev evs ih =>
      intro hu hsel
      have hrun : run s (ev :: evs) = run (step s ev) evs := rfl
      rw [hrun]
      have hstep := step_preserves s ev hu hsel
      exact ih (step s ev) hstep.1 hstep.2

/-- Claim C5 witness: a concrete selection of photo.jpg by alice, then
a full select-generate-save session starting from an empty collection,
with every resulting upload path inside the owned directory. -/
theorem claim_C5_witness :
    (("photo.jpg" : String) ≠ "" ∧
      copy2 none "photo.jpg"
        (save_image_to_project "photo.jpg" "alice" 7) = Except.ok () ∧
      (select_image none "photo.jpg" 7
          (sampleState none "" "")).selected_image_path
        = some (save_image_to_project "photo.jpg" "alice" 7) ∧
      insideOwnedB (save_image_to_project "photo.jpg" "alice" 7) = true ∧
      save_image_to_project "photo.jpg" "alice" 7 ≠ "photo.jpg") ∧
    ∀ d ∈ (run (sampleState none "" "")
        [Event.select none "photo.jpg" 7,
         Event.generate (Except.ok (some sampleGen)),
         Event.save]).uploads, insideOwnedB d.image_path = true :=
  ⟨⟨by decide, rfl,
     (claim_C5.1 none "photo.jpg" 7 (sampleState none "" "") (by decide)
       rfl).1,
     (claim_C5.1 none "photo.jpg" 7 (sampleState none "" "") (by decide)
       rfl).2.1,
     (claim_C5.1 none "photo.jpg" 7 (sampleState none "" "") (by decide)
       rfl).2.2⟩,
   claim_C5.2 (sampleState none "" "")
     [Event.select none "photo.jpg" 7,
      Event.generate (Except.ok (some sampleGen)), Event.save]
     (by intro d hd; simp [sampleState] at hd)
     (by intro q hq; simp [sampleState] at hq)⟩

end Artisan
